import Mathlib

/-!
Verification of the adguardfilter core subsystems: the authenticated
client (src/adguardapi/auth.go) and the timer registry
(src/common/timer/timer.go).  The Go code is shallowly embedded: global
mutable state becomes explicit state records, goroutines become a labelled
step relation, channels become explicit slots, and the HTTP network is an
oracle parameter giving the outcome of each exchange.
-/

deriving instance DecidableEq for Except

/-- Tests whether a Go-style `(value, err)` result carries no error. -/
def exceptIsOk {ε α : Type} : Except ε α → Bool
  | .ok _ => true
  | .error _ => false

/-- Extracts the returned value of a successful call (0 on error; only
read on success). -/
def exceptRef : Except String Nat → Nat
  | .ok r => r
  | .error _ => 0

namespace Adguard

/-- Outcome of the login HTTP exchange performed inside `Authenticate`:
`reqError` models `http.NewRequest` failing, `transportError` models
`httpClient.Do` returning an error, and `response status jarCookies bodyReadOk`
models a response with the given status after which the client cookie jar
holds `jarCookies` for the base URL (the jar is updated by the Go http
client during `Do`), with `bodyReadOk` telling whether `io.ReadAll`
succeeded on the body. -/
inductive LoginOutcome
  | reqError
  | transportError
  | response (status : Nat) (jarCookies : List String) (bodyReadOk : Bool)
deriving DecidableEq

/-- Outcome of one send of the caller request inside
`DoAuthenticatedRequest`: either `httpClient.Do` fails, or a response with
the given status code is obtained. -/
inductive ReqOutcome
  | transportError
  | resp (status : Nat)
deriving DecidableEq

/-- The package-level mutable state of src/adguardapi/auth.go: whether
`httpClient` is non-nil, the cookie jar content for the base URL, and the
stored credential triple `authBaseURL`, `authUsername`, `authPassword`. -/
structure AuthState where
  clientInit : Bool
  jar : List String
  authBaseURL : String
  authUsername : String
  authPassword : String
deriving DecidableEq

/-- The Go package `init` function: the credential triple is pre-populated
from the environment variables of the same names; the http client is not
yet initialized and the jar is empty. -/
def initEnvState (env : String → String) : AuthState :=
  { clientInit := false
    jar := []
    authBaseURL := env "authBaseURL"
    authUsername := env "authUsername"
    authPassword := env "authPassword" }

/-- The `if httpClient == nil { InitHTTPClient() }` prologue shared by
`Authenticate` and `DoAuthenticatedRequest`; `cookiejar.New(nil)` never
fails, so this always succeeds, installing a fresh empty jar. -/
def ensureClient (s : AuthState) : AuthState :=
  if s.clientInit then s else { s with clientInit := true, jar := [] }

/-- The stored credential triple. -/
def storedCreds (s : AuthState) : String × String × String :=
  (s.authBaseURL, s.authUsername, s.authPassword)

/-- Embeds `Authenticate(baseURL, username, password)`: POST the
credentials to `{baseURL}/control/login`; on transport or request-creation
failure return that error; on a non-200 status fail; on a 200 whose body
reads but whose jar holds no cookies for the base URL fail with
"no cookies received from authentication"; otherwise store the triple.
`json.Marshal` of the credentials struct cannot fail and is not modelled.
The status text in the real error message is the full `resp.Status`; we
render the code. -/
def Authenticate (outcome : LoginOutcome) (baseURL username password : String)
    (s : AuthState) : AuthState × Except String Unit :=
  let s := ensureClient s
  match outcome with
  | .reqError => (s, .error "failed to create authentication request")
  | .transportError => (s, .error "failed to authenticate")
  | .response status jarCookies bodyReadOk =>
    let s := { s with jar := jarCookies }
    if status ≠ 200 then
      (s, .error ("authentication failed with status: " ++ toString status))
    else if !bodyReadOk then
      (s, .error "failed to read response body")
    else if jarCookies.isEmpty then
      (s, .error "no cookies received from authentication")
    else
      ({ s with authBaseURL := baseURL, authUsername := username,
                authPassword := password }, .ok ())

/-- Embeds `isAuthError`: the status code signals an authorization
failure. -/
def isAuthError (statusCode : Nat) : Bool :=
  statusCode == 401 || statusCode == 403

/-- Embeds `canReauthenticate`: all three stored credential components are
non-empty. -/
def canReauthenticate (s : AuthState) : Bool :=
  s.authBaseURL != "" && s.authUsername != "" && s.authPassword != ""

/-- Observable trace of one `DoAuthenticatedRequest` call: the final
state, the result (`(attempt, status)` identifying which send produced the
returned response), the number of sends of the caller request, and the
credential triples passed to each `Authenticate` invocation, in order. -/
structure DoTrace where
  state : AuthState
  result : Except String (Nat × Nat)
  sends : Nat
  authCalls : List (String × String × String)
deriving DecidableEq

/-- Embeds `DoAuthenticatedRequest(req)`: send once; on transport failure
return it; on a 401/403 close the body, fail if no credentials are stored,
otherwise `Authenticate` with the stored triple and, on success, resend
the request exactly once and return whatever that second attempt yields.
`first` and `second` are the network outcomes of the two potential sends
and `login` the outcome of the potential login exchange. -/
def DoAuthenticatedRequest (first second : ReqOutcome) (login : LoginOutcome)
    (s : AuthState) : DoTrace :=
  let s := ensureClient s
  match first with
  | .transportError => ⟨s, .error "transport error", 1, []⟩
  | .resp status =>
    if isAuthError status then
      if !canReauthenticate s then
        ⟨s, .error "authentication required but no credentials available", 1, []⟩
      else
        let creds := storedCreds s
        let auth := Authenticate login s.authBaseURL s.authUsername s.authPassword s
        match auth.2 with
        | .error e => ⟨auth.1, .error e, 1, [creds]⟩
        | .ok _ =>
          match second with
          | .transportError => ⟨auth.1, .error "transport error", 2, [creds]⟩
          | .resp status2 => ⟨auth.1, .ok (2, status2), 2, [creds]⟩
    else ⟨s, .ok (1, status), 1, []⟩

end Adguard

namespace TimerSys

/-- Association-list model of a Go map: lookup of the first entry with the
given key. -/
def alGet {κ α : Type} [BEq κ] (l : List (κ × α)) (k : κ) : Option α :=
  (l.find? (fun p => p.1 == k)).map (fun p => p.2)

/-- Go map assignment `m[k] = v`: any previous entry for `k` is replaced. -/
def alSet {κ α : Type} [BEq κ] (l : List (κ × α)) (k : κ) (v : α) : List (κ × α) :=
  (k, v) :: l.filter (fun p => p.1 != k)

/-- Go map deletion `delete(m, k)`. -/
def alErase {κ α : Type} [BEq κ] (l : List (κ × α)) (k : κ) : List (κ × α) :=
  l.filter (fun p => p.1 != k)

/-- A timer callback `func()`: `tag` identifies it, `panics` tells whether
invoking it terminates abnormally. -/
structure Cb where
  tag : Nat
  panics : Bool
deriving DecidableEq

/-- Status of the goroutine started by `go t.run(duration)`: still blocked
in its `select`, or exited. -/
inductive RunState
  | waiting
  | finished
deriving DecidableEq

/-- The fields of a `Timer` value together with the status of its `run`
goroutine: `stopChan` is the occupancy of the 1-slot buffered stop
channel, `fireAt` the instant at which `time.NewTimer(duration)` delivers
on `timer.C` (creation clock plus duration), `expireTime` the stored
`expireTime` field. Times are nanosecond instants on a logical clock. -/
structure TimerData where
  id : String
  callback : Option Cb
  expireTime : Int
  fireAt : Int
  isActive : Bool
  stopChan : Bool
  runState : RunState
deriving DecidableEq

/-- The package-level state of src/common/timer/timer.go plus the logical
clock and a log of callback invocations: `registry` is the global `timers`
map from id to a reference into `store`, the heap of live `Timer` objects;
`nextRef` is the next fresh reference; `firedLog` records, in order, the
references whose callback has been invoked. -/
structure RegState where
  clock : Int
  registry : List (String × Nat)
  store : List (Nat × TimerData)
  nextRef : Nat
  firedLog : List Nat
deriving DecidableEq

/-- Embeds the method `Timer.Stop`: under the timer mutex, if the timer is
no longer active this is a no-op; otherwise perform a non-blocking send on
the 1-slot stop channel (`select { case t.stopChan <- true: default: }`),
which fills the slot when empty and does nothing when a signal is already
pending. It never blocks and never returns an error. -/
def Stop (s : RegState) (r : Nat) : RegState :=
  match alGet s.store r with
  | none => s
  | some td =>
    if !td.isActive then s
    else if td.stopChan then s
    else { s with store := alSet s.store r { td with stopChan := true } }

/-- Embeds `StopTimer(id)`: look the id up in the registry; an unknown id
yields the not-found error; otherwise delegate to `Timer.Stop`. -/
def StopTimer (s : RegState) (id : String) : RegState × Except String Unit :=
  match alGet s.registry id with
  | none => (s, .error ("timer not found: " ++ id))
  | some r => (Stop s r, .ok ())

/-- Embeds `createTimer(id, duration, expireTime, callback)`: if the id is
already registered, call `Stop` on the existing timer, then build the new
`Timer` (active, empty stop channel), register it under the id and start
its goroutine (`fireAt` is the current clock plus the duration). Returns
the new reference. -/
def createTimer (s : RegState) (id : String) (duration : Int) (expireTime : Int)
    (callback : Option Cb) : RegState × Nat :=
  let s1 := match alGet s.registry id with
    | some r0 => Stop s r0
    | none => s
  let r := s1.nextRef
  let td : TimerData :=
    { id := id, callback := callback, expireTime := expireTime,
      fireAt := s1.clock + duration, isActive := true, stopChan := false,
      runState := .waiting }
  ({ s1 with registry := alSet s1.registry id r,
             store := alSet s1.store r td,
             nextRef := r + 1 }, r)

/-- One minute in the nanosecond units of `time.Duration`. -/
def minuteNs : Int := 60000000000

/-- Embeds `NewTimerWithDuration(id, minutes, callback)`: reject a
non-positive duration, then a nil callback, then create a timer expiring
`minutes` minutes from now. -/
def NewTimerWithDuration (s : RegState) (id : String) (minutes : Int)
    (callback : Option Cb) : RegState × Except String Nat :=
  if minutes ≤ 0 then
    (s, .error "duration must be greater than 0 minutes")
  else if callback = none then
    (s, .error "callback function cannot be nil")
  else
    let duration := minutes * minuteNs
    let expireTime := s.clock + duration
    let out := createTimer s id duration expireTime callback
    (out.1, .ok out.2)

/-- Embeds `NewTimerWithDeadline(id, deadline, callback)`: reject a
deadline strictly before now (`deadline.Before(time.Now())`), then a nil
callback, then create a timer with duration `time.Until(deadline)`. -/
def NewTimerWithDeadline (s : RegState) (id : String) (deadline : Int)
    (callback : Option Cb) : RegState × Except String Nat :=
  if deadline < s.clock then
    (s, .error "deadline must be in the future")
  else if callback = none then
    (s, .error "callback function cannot be nil")
  else
    let duration := deadline - s.clock
    let out := createTimer s id duration deadline callback
    (out.1, .ok out.2)

/-- Embeds `Timer.IsActive` read through a reference (a dangling reference
reads false; under well-formed states references are live). -/
def IsActive (s : RegState) (r : Nat) : Bool :=
  match alGet s.store r with
  | some td => td.isActive
  | none => false

/-- Embeds `Timer.GetExpireTime`. -/
def GetExpireTime (s : RegState) (r : Nat) : Int :=
  match alGet s.store r with
  | some td => td.expireTime
  | none => 0

/-- Embeds `Timer.GetID`. -/
def GetID (s : RegState) (r : Nat) : String :=
  match alGet s.store r with
  | some td => td.id
  | none => ""

/-- Embeds `GetTimer(id)`: the registry entry and a found flag. -/
def GetTimer (s : RegState) (id : String) : Option Nat × Bool :=
  (alGet s.registry id, (alGet s.registry id).isSome)

/-- Embeds `GetAllActiveTimers()`: the ids of registered timers whose
`IsActive` reads true. -/
def GetAllActiveTimers (s : RegState) : List String :=
  (s.registry.filter (fun p => IsActive s p.2)).map (fun p => p.1)

/-- Embeds the expiry branch of `Timer.run` (the `case <-t.timer.C` arm),
executed when the timer channel has delivered: mark the timer inactive
(the goroutine then exits, so `runState` becomes finished); if the
callback is non-nil, invoke it (recorded in `firedLog`).  When the
callback panics, the unwinding skips the rest of the function body — in
particular the `delete(timers, t.id)` — and the deferred `recover` stops
the panic at function exit, so it never escapes `run`; the second
component reports whether a panic escaped, which is therefore false on
every path.  When the callback returns (or is nil), the id is deleted
from the registry. -/
def runExpiry (s : RegState) (r : Nat) : RegState × Bool :=
  match alGet s.store r with
  | none => (s, false)
  | some td =>
    let td1 := { td with isActive := false, runState := RunState.finished }
    let s1 := { s with store := alSet s.store r td1 }
    match td.callback with
    | none => ({ s1 with registry := alErase s1.registry td.id }, false)
    | some cb =>
      let s2 := { s1 with firedLog := s1.firedLog ++ [r] }
      if cb.panics then (s2, false)
      else ({ s2 with registry := alErase s2.registry td.id }, false)

/-- Embeds the cancellation branch of `Timer.run` (the `case <-t.stopChan`
arm), executed when a stop signal is pending: receive the signal, mark the
timer inactive, stop the underlying `time.Timer`, and delete the id from
the registry (note: the deletion is by id, so it removes whatever timer is
currently registered under that id). The callback is not invoked. -/
def runStop (s : RegState) (r : Nat) : RegState :=
  match alGet s.store r with
  | none => s
  | some td =>
    let td1 := { td with isActive := false, stopChan := false,
                         runState := RunState.finished }
    let s1 := { s with store := alSet s.store r td1 }
    { s1 with registry := alErase s1.registry td.id }

/-- Labels of the system steps: the clock advancing, a timer goroutine
resolving its `select` through the expiry or the cancellation arm, and the
API calls that mutate state. -/
inductive SLabel
  | tick (n : Int)
  | expiry (r : Nat)
  | stopSig (r : Nat)
  | apiCreate (id : String) (duration expireTime : Int) (callback : Option Cb)
  | apiStopTimer (id : String)
  | apiStopHandle (r : Nat)
deriving DecidableEq

/-- The interleaving semantics of the timer subsystem.  A goroutine still
waiting in its `select` may take the expiry arm once the clock has reached
its firing instant (even if a stop signal is also pending — Go `select`
chooses among ready cases nondeterministically) and may take the
cancellation arm whenever a stop signal is pending. -/
inductive Step : SLabel → RegState → RegState → Prop
  | tick (s : RegState) (n : Int) (hn : 0 ≤ n) :
      Step (.tick n) s { s with clock := s.clock + n }
  | expiry (s : RegState) (r : Nat) (td : TimerData)
      (hs : alGet s.store r = some td) (hw : td.runState = .waiting)
      (hf : td.fireAt ≤ s.clock) :
      Step (.expiry r) s (runExpiry s r).1
  | stopSig (s : RegState) (r : Nat) (td : TimerData)
      (hs : alGet s.store r = some td) (hw : td.runState = .waiting)
      (hc : td.stopChan = true) :
      Step (.stopSig r) s (runStop s r)
  | apiCreate (s : RegState) (id : String) (duration expireTime : Int)
      (callback : Option Cb) :
      Step (.apiCreate id duration expireTime callback) s
        (createTimer s id duration expireTime callback).1
  | apiStopTimer (s : RegState) (id : String) :
      Step (.apiStopTimer id) s (StopTimer s id).1
  | apiStopHandle (s : RegState) (r : Nat) :
      Step (.apiStopHandle r) s (Stop s r)

/-- A finite execution: the list of labels of the steps taken. -/
inductive Trace : RegState → List SLabel → RegState → Prop
  | nil (s : RegState) : Trace s [] s
  | cons (s1 s2 s3 : RegState) (l : SLabel) (ls : List SLabel) :
      Step l s1 s2 → Trace s2 ls s3 → Trace s1 (l :: ls) s3

/-- Well-formedness: every heap reference is below the allocation
counter, so freshly allocated references never collide. -/
def WFStore (s : RegState) : Prop :=
  ∀ p ∈ s.store, p.1 < s.nextRef

instance (s : RegState) : Decidable (WFStore s) := by
  unfold WFStore; infer_instance

/-- The fields of a timer that `Timer.Stop` never touches (everything but
the stop-channel slot). -/
def shape (td : TimerData) : String × Option Cb × Int × Int × Bool × RunState :=
  (td.id, td.callback, td.expireTime, td.fireAt, td.isActive, td.runState)

/-- A registered, active, still-waiting timer under `id`, held at
reference `r`, unique in the heap for that id, in a well-formed state. -/
def live (s : RegState) (id : String) (r : Nat) : Prop :=
  alGet s.registry id = some r ∧
  (∃ td, alGet s.store r = some td ∧ td.id = id ∧ td.isActive = true ∧
    td.runState = .waiting) ∧
  (∀ p ∈ s.store, p.2.id = id → p.1 = r) ∧
  WFStore s

/-- Labels that are not a termination of the timer `r` for `id` and not a
replacement of `id` (the events that the spec names as ending the
timer's active life). -/
def avoids (id : String) (r : Nat) : SLabel → Bool
  | .expiry r1 => r1 != r
  | .stopSig r1 => r1 != r
  | .apiCreate id1 _ _ _ => id1 != id
  | _ => true

/-- A callback that returns normally. -/
def cbA : Cb := ⟨0, false⟩

/-- A second callback that returns normally. -/
def cbB : Cb := ⟨1, false⟩

/-- A callback that terminates abnormally when invoked. -/
def cbPanic : Cb := ⟨7, true⟩

/-- The pristine registry state: empty registry, empty heap, clock 0. -/
def emptyReg : RegState := ⟨0, [], [], 0, []⟩

/-- A pristine registry state with the clock at instant 100. -/
def c3State : RegState := ⟨100, [], [], 0, []⟩

/-- A state holding one registered timer (reference 0, id "t") whose
panicking callback is due: the clock has reached its firing instant. -/
def c1State : RegState :=
  ⟨minuteNs, [("t", 0)],
   [(0, ⟨"t", some cbPanic, minuteNs, minuteNs, true, false, .waiting⟩)], 1, []⟩

/-- The same state with a callback that returns normally. -/
def c1StateOk : RegState :=
  ⟨minuteNs, [("t", 0)],
   [(0, ⟨"t", some cbA, minuteNs, minuteNs, true, false, .waiting⟩)], 1, []⟩

/-- The `Timer` value built by `createTimer`: active, waiting, empty stop
slot, with the given expiry instant and firing instant. -/
def newTd (id : String) (cb : Option Cb) (e fa : Int) : TimerData :=
  ⟨id, cb, e, fa, true, false, .waiting⟩

/-- A state holding one registered timer that is already inactive with a
stop signal still pending in its channel slot. -/
def stoppedState : RegState :=
  ⟨0, [("t", 0)], [(0, ⟨"t", some cbA, 5, 5, false, true, .waiting⟩)], 1, []⟩

/-- Scenario for the replace-on-collision race: timer `cbA` is created
under id "t" at clock 0 with a one-minute duration. -/
def c4s1 : RegState := (createTimer emptyReg "t" minuteNs minuteNs (some cbA)).1

/-- One minute later the old timer's expiry instant has arrived while its
goroutine has not yet resolved its `select`. -/
def c4s2 : RegState := { c4s1 with clock := c4s1.clock + minuteNs }

/-- A replacement timer `cbB` is now created under the same id: the old
timer is signalled to stop, but its expiry arm is also ready. -/
def c4s3 : RegState :=
  (createTimer c4s2 "t" minuteNs (c4s2.clock + minuteNs) (some cbB)).1

/-- The old goroutine's `select` picks the expiry arm: the superseded
callback fires. -/
def c4s4 : RegState := (runExpiry c4s3 0).1

end TimerSys


namespace Adguard

/-- Characterization of the error/success outcome of `Authenticate`: it is
determined by the login exchange outcome alone. -/
def authResult (outcome : LoginOutcome) : Except String Unit :=
  match outcome with
  | .reqError => .error "failed to create authentication request"
  | .transportError => .error "failed to authenticate"
  | .response status jarCookies bodyReadOk =>
    if status ≠ 200 then
      .error ("authentication failed with status: " ++ toString status)
    else if !bodyReadOk then
      .error "failed to read response body"
    else if jarCookies.isEmpty then
      .error "no cookies received from authentication"
    else .ok ()

theorem authenticate_snd (outcome : LoginOutcome) (b u p : String) (s : AuthState) :
    (Authenticate outcome b u p s).2 = authResult outcome := by
  cases outcome with
  | reqError => rfl
  | transportError => rfl
  | response status jarCookies bodyReadOk =>
    simp only [Authenticate, authResult]
    split
    · rfl
    · split
      · rfl
      · split <;> rfl

theorem storedCreds_ensureClient (s : AuthState) :
    storedCreds (ensureClient s) = storedCreds s := by
  unfold ensureClient storedCreds
  split <;> rfl

theorem canReauthenticate_ensureClient (s : AuthState) :
    canReauthenticate (ensureClient s) = canReauthenticate s := by
  unfold ensureClient canReauthenticate
  split <;> rfl

end Adguard

namespace TimerSys

theorem alGet_set_self {κ α : Type} [BEq κ] [LawfulBEq κ] (l : List (κ × α))
    (k : κ) (v : α) : alGet (alSet l k v) k = some v := by
  simp [alGet, alSet, List.find?_cons_of_pos]

theorem alGet_filter_ne {κ α : Type} [BEq κ] [LawfulBEq κ] (l : List (κ × α))
    (k k' : κ) (h : k' ≠ k) :
    alGet (l.filter (fun p => p.1 != k)) k' = alGet l k' := by
  induction l with
  | nil => rfl
  | cons hd tl ih =>
    unfold alGet at ih ⊢
    by_cases h1 : hd.1 = k'
    · have hkeep : (hd.1 != k) = true := by simp [h1, h]
      have hhit : (hd.1 == k') = true := by simp [h1]
      simp only [List.filter_cons, hkeep, if_true, List.find?_cons, hhit]
    · have hmiss : (hd.1 == k') = false := by simp [h1]
      by_cases h2 : hd.1 = k
      · have hdrop : (hd.1 != k) = false := by simp [h2]
        simp only [List.filter_cons, hdrop, Bool.false_eq_true, if_false,
          List.find?_cons, hmiss]
        exact ih
      · have hkeep : (hd.1 != k) = true := by simp [h2]
        simp only [List.filter_cons, hkeep, if_true, List.find?_cons, hmiss]
        exact ih

theorem alGet_set_ne {κ α : Type} [BEq κ] [LawfulBEq κ] (l : List (κ × α))
    (k k' : κ) (v : α) (h : k' ≠ k) :
    alGet (alSet l k v) k' = alGet l k' := by
  have hne : (k == k') = false := by
    simp [Ne.symm h]
  simp [alGet, alSet, List.find?_cons_of_neg, hne]
  have := alGet_filter_ne l k k' h
  simpa [alGet] using this

theorem alGet_erase_ne {κ α : Type} [BEq κ] [LawfulBEq κ] (l : List (κ × α))
    (k k' : κ) (h : k' ≠ k) :
    alGet (alErase l k) k' = alGet l k' :=
  alGet_filter_ne l k k' h

theorem alGet_erase_self {κ α : Type} [BEq κ] [LawfulBEq κ] (l : List (κ × α))
    (k : κ) : alGet (alErase l k) k = none := by
  induction l with
  | nil => rfl
  | cons hd tl ih =>
    by_cases h1 : hd.1 = k
    · simp only [alErase, List.filter_cons] at ih ⊢
      simp [h1]
      exact ih
    · simp only [alGet, alErase, List.filter_cons] at ih ⊢
      have hkeep : (hd.1 != k) = true := by simp [h1]
      have hmiss : (hd.1 == k) = false := by simp [h1]
      simp only [hkeep, if_true, List.find?_cons, hmiss]
      exact ih

theorem alGet_mem {κ α : Type} [BEq κ] [LawfulBEq κ] {l : List (κ × α)}
    {k : κ} {v : α} (h : alGet l k = some v) : (k, v) ∈ l := by
  unfold alGet at h
  cases hf : l.find? (fun p => p.1 == k) with
  | none => simp [hf] at h
  | some p =>
    have hp := List.find?_some hf
    have hm := List.mem_of_find?_eq_some hf
    simp [hf] at h
    have hk : p.1 = k := by simpa using hp
    have : p = (k, v) := by
      cases p
      simp_all
    simpa [this] using hm

theorem mem_alSet {κ α : Type} [BEq κ] {l : List (κ × α)} {k : κ} {v : α}
    {p : κ × α} (h : p ∈ alSet l k v) : p = (k, v) ∨ p ∈ l := by
  rcases List.mem_cons.1 h with h1 | h1
  · exact Or.inl h1
  · exact Or.inr (List.mem_of_mem_filter h1)

theorem mem_alErase {κ α : Type} [BEq κ] {l : List (κ × α)} {k : κ}
    {p : κ × α} (h : p ∈ alErase l k) : p ∈ l :=
  List.mem_of_mem_filter h

end TimerSys

namespace Adguard

/-- Characterization of the stored credential triple after a call to
`Authenticate`: it becomes the new triple exactly on success and is
untouched otherwise. -/
theorem authenticate_creds_eq (o : LoginOutcome) (b u p : String) (s : AuthState) :
    storedCreds (Authenticate o b u p s).1
      = if exceptIsOk (authResult o) = true then (b, u, p) else storedCreds s := by
  cases o with
  | reqError => simp [Authenticate, authResult, exceptIsOk, storedCreds_ensureClient]
  | transportError => simp [Authenticate, authResult, exceptIsOk, storedCreds_ensureClient]
  | response status cs bodyOk =>
    have hjar : storedCreds { ensureClient s with jar := cs } = storedCreds s := by
      rw [← storedCreds_ensureClient s]; rfl
    simp only [Authenticate, authResult]
    by_cases h1 : status ≠ 200
    · simp only [if_pos h1, exceptIsOk, if_false, Bool.false_eq_true]
      simpa using hjar
    · simp only [if_neg h1]
      by_cases h2 : (!bodyOk) = true
      · simp only [if_pos h2, exceptIsOk, if_false, Bool.false_eq_true]
        simpa using hjar
      · simp only [if_neg h2]
        by_cases h3 : cs.isEmpty = true
        · simp only [if_pos h3, exceptIsOk, if_false, Bool.false_eq_true]
          simpa using hjar
        · simp only [if_neg h3, exceptIsOk, if_true]
          simp [storedCreds]

/-- C5: every failing `Authenticate` call — transport failure, non-200
status, or a 200 with zero cookies in the jar for the base URL (itself a
failure with error "no cookies received from authentication") — leaves
the stored credential triple unchanged; only a fully successful
`Authenticate` stores the new triple. -/
theorem authenticate_failure_preserves_credentials (o : LoginOutcome)
    (b u p : String) (s : AuthState) :
    (∀ e, (Authenticate o b u p s).2 = .error e →
      storedCreds (Authenticate o b u p s).1 = storedCreds s) ∧
    ((Authenticate o b u p s).2 = .ok () →
      storedCreds (Authenticate o b u p s).1 = (b, u, p)) ∧
    ((Authenticate (.response 200 [] true) b u p s).2
      = .error "no cookies received from authentication") := by
  refine ⟨?_, ?_, by simp [Authenticate]⟩
  · intro e he
    rw [authenticate_snd] at he
    rw [authenticate_creds_eq, he]
    rfl
  · intro hok
    rw [authenticate_snd] at hok
    rw [authenticate_creds_eq, hok]
    rfl

/-- Witness for C5 at a concrete input: a 200 response with zero cookies
fails and the previously stored triple ("B", "U", "P") is untouched. -/
theorem authenticate_failure_preserves_credentials_witness :
    storedCreds (Authenticate (.response 200 [] true) "b" "u" "p"
      ⟨true, [], "B", "U", "P"⟩).1 = storedCreds ⟨true, [], "B", "U", "P"⟩ :=
  (authenticate_failure_preserves_credentials (.response 200 [] true) "b" "u" "p"
      ⟨true, [], "B", "U", "P"⟩).1
    "no cookies received from authentication" (by decide)

/-- Helper: no outcome of the login exchange can make `Authenticate`
return the "authentication required" error that the no-credentials branch
of `DoAuthenticatedRequest` uses. -/
theorem authResult_ne_authRequired (o : LoginOutcome) :
    authResult o ≠ .error "authentication required but no credentials available" := by
  cases o with
  | reqError =>
    intro h
    exact absurd (Except.error.inj h) (by decide)
  | transportError =>
    intro h
    exact absurd (Except.error.inj h) (by decide)
  | response status cs bodyOk =>
    simp only [authResult]
    by_cases hs : status ≠ 200
    · rw [if_pos hs]
      intro hx
      have he := Except.error.inj hx
      have hd := congrArg String.data he
      rw [String.data_append] at hd
      have h15 := congrArg (fun l : List Char => l[15]?) hd
      simp only at h15
      have hlt : 15 < ("authentication failed with status: ".data).length := by decide
      rw [List.getElem?_append_left hlt] at h15
      exact absurd h15 (by decide)
    · rw [if_neg hs]
      by_cases hb : (!bodyOk) = true
      · rw [if_pos hb]
        intro h
        exact absurd (Except.error.inj h) (by decide)
      · rw [if_neg hb]
        by_cases hc : cs.isEmpty = true
        · rw [if_pos hc]
          intro h
          exact absurd (Except.error.inj h) (by decide)
        · rw [if_neg hc]
          simp

/-- C2: a `DoAuthenticatedRequest` whose first send yields a 401 or 403
while credentials are stored performs exactly one `Authenticate` call; if
that call fails its error is returned; if it succeeds the original
request is resent exactly once and the result of that second attempt —
whatever its status, including another 401/403 — is returned with no
further `Authenticate` call or resend. -/
theorem doAuthenticatedRequest_single_reauth (st : Nat) (second : ReqOutcome)
    (login : LoginOutcome) (s : AuthState)
    (hst : isAuthError st = true) (hcred : canReauthenticate s = true) :
    (DoAuthenticatedRequest (.resp st) second login s).authCalls.length = 1 ∧
    (∀ e, authResult login = .error e →
      (DoAuthenticatedRequest (.resp st) second login s).result = .error e ∧
      (DoAuthenticatedRequest (.resp st) second login s).sends = 1) ∧
    (authResult login = .ok () →
      (DoAuthenticatedRequest (.resp st) second login s).sends = 2 ∧
      (∀ st2, second = .resp st2 →
        (DoAuthenticatedRequest (.resp st) second login s).result = .ok (2, st2)) ∧
      (second = .transportError →
        (DoAuthenticatedRequest (.resp st) second login s).result
          = .error "transport error")) := by
  have hcred2 : (!canReauthenticate (ensureClient s)) = false := by
    rw [canReauthenticate_ensureClient, hcred]; rfl
  simp only [DoAuthenticatedRequest, hst, if_true, hcred2, Bool.false_eq_true,
    if_false, authenticate_snd]
  cases hres : authResult login with
  | error e0 =>
    refine ⟨rfl, ?_, ?_⟩
    · intro e he
      injection he with h0
      subst h0
      exact ⟨rfl, rfl⟩
    · intro hok
      exact absurd hok (by simp)
  | ok u =>
    refine ⟨?_, ?_, ?_⟩
    · cases second <;> rfl
    · intro e he
      exact absurd he (by simp)
    · intro _
      refine ⟨by cases second <;> rfl, ?_, ?_⟩
      · intro st2 h2
        subst h2
        rfl
      · intro h2
        subst h2
        rfl

/-- Witness for C2 at a concrete input: stored credentials, first send
yields 401, re-authentication succeeds, second send yields 500 — the 500
from the second attempt is returned after exactly one re-authentication. -/
theorem doAuthenticatedRequest_single_reauth_witness :
    (DoAuthenticatedRequest (.resp 401) (.resp 500) (.response 200 ["c"] true)
      ⟨true, [], "B", "U", "P"⟩).result = .ok (2, 500) :=
  (((doAuthenticatedRequest_single_reauth 401 (.resp 500)
      (.response 200 ["c"] true) ⟨true, [], "B", "U", "P"⟩
      (by decide) (by decide)).2.2 (by decide)).2.1 500 rfl)

/-- C6: a `DoAuthenticatedRequest` whose first send yields a 401 or 403
while no credentials are stored fails immediately with the
"authentication required" error, performs no `Authenticate` call and does
not resend the request. -/
theorem doAuthenticatedRequest_requires_credentials (st : Nat)
    (second : ReqOutcome) (login : LoginOutcome) (s : AuthState)
    (hst : isAuthError st = true) (hcred : canReauthenticate s = false) :
    DoAuthenticatedRequest (.resp st) second login s
      = ⟨ensureClient s,
         .error "authentication required but no credentials available", 1, []⟩ := by
  have hcred2 : (!canReauthenticate (ensureClient s)) = true := by
    rw [canReauthenticate_ensureClient, hcred]; rfl
  simp only [DoAuthenticatedRequest, hst, if_true, hcred2]

/-- Witness for C6 at a concrete input: empty base URL, first send yields
403 — the call fails with the authentication-required error, zero
`Authenticate` calls, one send. -/
theorem doAuthenticatedRequest_requires_credentials_witness :
    DoAuthenticatedRequest (.resp 403) (.resp 200) (.response 200 ["c"] true)
        ⟨true, [], "", "U", "P"⟩
      = ⟨ensureClient ⟨true, [], "", "U", "P"⟩,
         .error "authentication required but no credentials available", 1, []⟩ :=
  doAuthenticatedRequest_requires_credentials 403 (.resp 200)
    (.response 200 ["c"] true) ⟨true, [], "", "U", "P"⟩ (by decide) (by decide)

/-- C10: the credential triple is pre-populated at process start from the
environment variables authBaseURL, authUsername and authPassword, so when
all three are non-empty a 401/403 response triggers an `Authenticate`
call with those environment-derived credentials — despite no prior
`Authenticate` call having ever succeeded in the start state — instead of
failing with "authentication required". -/
theorem env_prepopulated_credentials_reauth (env : String → String)
    (h1 : env "authBaseURL" ≠ "") (h2 : env "authUsername" ≠ "")
    (h3 : env "authPassword" ≠ "") (st : Nat) (second : ReqOutcome)
    (login : LoginOutcome) (hst : isAuthError st = true) :
    canReauthenticate (initEnvState env) = true ∧
    (DoAuthenticatedRequest (.resp st) second login (initEnvState env)).authCalls
      = [(env "authBaseURL", env "authUsername", env "authPassword")] ∧
    (DoAuthenticatedRequest (.resp st) second login (initEnvState env)).result
      ≠ .error "authentication required but no credentials available" := by
  have hcr : canReauthenticate (initEnvState env) = true := by
    simp [canReauthenticate, initEnvState, h1, h2, h3]
  have hcred2 : (!canReauthenticate (ensureClient (initEnvState env))) = false := by
    rw [canReauthenticate_ensureClient, hcr]; rfl
  refine ⟨hcr, ?_⟩
  simp only [DoAuthenticatedRequest, hst, if_true, hcred2, Bool.false_eq_true,
    if_false, authenticate_snd]
  cases hres : authResult login with
  | error e0 =>
    refine ⟨rfl, ?_⟩
    intro hcontra
    have he0 := Except.error.inj hcontra
    exact authResult_ne_authRequired login (by rw [hres, he0])
  | ok u =>
    refine ⟨by cases second <;> rfl, ?_⟩
    cases second with
    | transportError =>
      intro hcontra
      exact absurd (Except.error.inj hcontra) (by decide)
    | resp st2 =>
      simp

/-- Witness for C10 at a concrete input: every environment variable maps
to "x"; a 401 triggers a re-authentication with the env-derived triple. -/
theorem env_prepopulated_credentials_reauth_witness :
    canReauthenticate (initEnvState (fun _ => "x")) = true ∧
    (DoAuthenticatedRequest (.resp 401) (.resp 200) (.response 200 ["c"] true)
        (initEnvState (fun _ => "x"))).authCalls = [("x", "x", "x")] ∧
    (DoAuthenticatedRequest (.resp 401) (.resp 200) (.response 200 ["c"] true)
        (initEnvState (fun _ => "x"))).result
      ≠ .error "authentication required but no credentials available" :=
  env_prepopulated_credentials_reauth (fun _ => "x") (by decide) (by decide)
    (by decide) 401 (.resp 200) (.response 200 ["c"] true) (by decide)

end Adguard

namespace TimerSys

/-- C3 (amended): `NewTimerWithDuration` with `minutes <= 0` and
`NewTimerWithDeadline` with `deadline` strictly before now return a
validation error and leave the whole registry state unchanged (a deadline
exactly equal to now is accepted — see the counterexample). -/
theorem newTimer_validation (s : RegState) (id : String) (minutes deadline : Int)
    (cb : Option Cb) :
    (minutes ≤ 0 → NewTimerWithDuration s id minutes cb
      = (s, .error "duration must be greater than 0 minutes")) ∧
    (deadline < s.clock → NewTimerWithDeadline s id deadline cb
      = (s, .error "deadline must be in the future")) := by
  constructor
  · intro h
    simp [NewTimerWithDuration, h]
  · intro h
    simp [NewTimerWithDeadline, h]

/-- Witness for C3 at concrete inputs: zero minutes, and a deadline one
tick in the past, are both rejected without touching the state. -/
theorem newTimer_validation_witness :
    NewTimerWithDuration c3State "t" 0 (some cbA)
      = (c3State, .error "duration must be greater than 0 minutes") ∧
    NewTimerWithDeadline c3State "t" 99 (some cbA)
      = (c3State, .error "deadline must be in the future") :=
  ⟨(newTimer_validation c3State "t" 0 99 (some cbA)).1 (by decide),
   (newTimer_validation c3State "t" 0 99 (some cbA)).2 (by decide)⟩

/-- C3 counterexample: `NewTimerWithDeadline` called with `deadline = now`
(clock 100, deadline 100) does not return a validation error — the source
check is `deadline.Before(time.Now())`, which is strict — and it registers
a timer, so the claim that `deadline <= now` is rejected with the registry
unchanged is false at this input. -/
theorem newTimerWithDeadline_at_now_counterexample :
    exceptIsOk (NewTimerWithDeadline c3State "t" 100 (some cbA)).2 = true ∧
    alGet (NewTimerWithDeadline c3State "t" 100 (some cbA)).1.registry "t" = some 0 ∧
    (NewTimerWithDeadline c3State "t" 100 (some cbA)).1 ≠ c3State := by
  decide

/-- C9 (amended): a nil callback always yields an error and registers no
timer, and the error is "callback function cannot be nil" whenever the
duration/deadline validation passes; when the duration or deadline is
itself invalid, that validation error is returned instead (and still no
timer is registered). -/
theorem nilCallback_rejected (s : RegState) (id : String) (minutes deadline : Int) :
    (NewTimerWithDuration s id minutes none).1 = s ∧
    exceptIsOk (NewTimerWithDuration s id minutes none).2 = false ∧
    (0 < minutes → (NewTimerWithDuration s id minutes none).2
      = .error "callback function cannot be nil") ∧
    (NewTimerWithDeadline s id deadline none).1 = s ∧
    exceptIsOk (NewTimerWithDeadline s id deadline none).2 = false ∧
    (s.clock ≤ deadline → (NewTimerWithDeadline s id deadline none).2
      = .error "callback function cannot be nil") := by
  have hdur : ∀ h : ¬minutes ≤ 0, NewTimerWithDuration s id minutes none
      = (s, .error "callback function cannot be nil") := by
    intro h
    simp [NewTimerWithDuration, h]
  have hdl : ∀ h : ¬deadline < s.clock, NewTimerWithDeadline s id deadline none
      = (s, .error "callback function cannot be nil") := by
    intro h
    simp [NewTimerWithDeadline, h]
  refine ⟨?_, ?_, ?_, ?_, ?_, ?_⟩
  · by_cases hm : minutes ≤ 0
    · simp [NewTimerWithDuration, hm]
    · rw [hdur hm]
  · by_cases hm : minutes ≤ 0
    · simp [NewTimerWithDuration, hm, exceptIsOk]
    · rw [hdur hm]
      rfl
  · intro h
    rw [hdur (by omega)]
  · by_cases hm : deadline < s.clock
    · simp [NewTimerWithDeadline, hm]
    · rw [hdl hm]
  · by_cases hm : deadline < s.clock
    · simp [NewTimerWithDeadline, hm, exceptIsOk]
    · rw [hdl hm]
      rfl
  · intro h
    rw [hdl (by omega)]

/-- Witness for C9 at concrete inputs: nil callback with a valid duration
and a valid deadline yields the nil-callback error. -/
theorem nilCallback_rejected_witness :
    (NewTimerWithDuration emptyReg "t" 5 none).2
      = .error "callback function cannot be nil" ∧
    (NewTimerWithDeadline emptyReg "t" 10 none).2
      = .error "callback function cannot be nil" :=
  ⟨(nilCallback_rejected emptyReg "t" 5 10).2.2.1 (by decide),
   (nilCallback_rejected emptyReg "t" 5 10).2.2.2.2.2 (by decide)⟩

/-- C9 counterexample: with `minutes = 0` and a nil callback the returned
error is the duration validation error, not "callback function cannot be
nil", so the claim's universally quantified error message is false at
this input (an error is still returned and nothing is registered). -/
theorem nilCallback_duration_error_counterexample :
    (NewTimerWithDuration emptyReg "t" 0 none).2
      = .error "duration must be greater than 0 minutes" ∧
    (NewTimerWithDuration emptyReg "t" 0 none).2
      ≠ .error "callback function cannot be nil" := by
  decide

/-- C7: `StopTimer` on an id absent from the registry returns the
not-found error and changes no state; `Timer.Stop` on an already-inactive
timer is a no-op returning normally; and repeating `Stop` (including when
a stop signal is already pending) is idempotent — the non-blocking
single-slot send never errors (`Stop` is a total function into the state,
with no error component). -/
theorem stop_noop_and_idempotent (s : RegState) (id : String) (r : Nat)
    (td : TimerData) :
    (alGet s.registry id = none →
      StopTimer s id = (s, .error ("timer not found: " ++ id))) ∧
    (alGet s.store r = some td → td.isActive = false → Stop s r = s) ∧
    (alGet s.store r = some td → td.stopChan = true → Stop s r = s) ∧
    Stop (Stop s r) r = Stop s r := by
  have hchanStop : ∀ (s1 : RegState) (td1 : TimerData),
      alGet s1.store r = some td1 → td1.stopChan = true → Stop s1 r = s1 := by
    intro s1 td1 h hchan
    by_cases hact : td1.isActive = true
    · simp [Stop, h, hact, hchan]
    · simp only [Bool.not_eq_true] at hact
      simp [Stop, h, hact]
  refine ⟨?_, ?_, ?_, ?_⟩
  · intro h
    simp [StopTimer, h]
  · intro h hact
    simp [Stop, h, hact]
  · intro h hchan
    exact hchanStop s td h hchan
  · cases h : alGet s.store r with
    | none =>
      have h0 : Stop s r = s := by simp [Stop, h]
      rw [h0, h0]
    | some td0 =>
      by_cases hact : td0.isActive = true
      · by_cases hchan : td0.stopChan = true
        · have h0 : Stop s r = s := hchanStop s td0 h hchan
          rw [h0, h0]
        · have h0 : Stop s r
              = { s with store := alSet s.store r { td0 with stopChan := true } } := by
            simp only [Bool.not_eq_true] at hchan
            simp [Stop, h, hact, hchan]
          rw [h0]
          exact hchanStop _ { td0 with stopChan := true } (alGet_set_self _ _ _) rfl
      · simp only [Bool.not_eq_true] at hact
        have h0 : Stop s r = s := by simp [Stop, h, hact]
        rw [h0, h0]

/-- Witness for C7 at a concrete input: a state holding one inactive timer
with a pending stop signal — the unknown id "x" reports not-found with the
state unchanged, and stopping the inactive timer is a no-op. -/
theorem stop_noop_and_idempotent_witness :
    StopTimer stoppedState "x" = (stoppedState, .error "timer not found: x") ∧
    Stop stoppedState 0 = stoppedState ∧
    Stop (Stop stoppedState 0) 0 = Stop stoppedState 0 :=
  ⟨(stop_noop_and_idempotent stoppedState "x" 0
      ⟨"t", some cbA, 5, 5, false, true, .waiting⟩).1 (by decide),
   (stop_noop_and_idempotent stoppedState "x" 0
      ⟨"t", some cbA, 5, 5, false, true, .waiting⟩).2.1 (by decide) (by decide),
   (stop_noop_and_idempotent stoppedState "x" 0
      ⟨"t", some cbA, 5, 5, false, true, .waiting⟩).2.2.2⟩

/-- C1 (code defect): when a due timer's callback panics, the deferred
recover does stop the panic at the exit of `run` — it never escapes (the
second component of `runExpiry` is false) and the timer is marked
inactive — but the panic unwinding skips the `delete(timers, t.id)`
statement placed after the callback invocation, so the timer's id remains
in the registry, violating the claimed removal; with a normally returning
callback the id is removed. -/
theorem expiry_panic_leaves_registry_entry :
    (runExpiry c1State 0).2 = false ∧
    IsActive (runExpiry c1State 0).1 0 = false ∧
    alGet (runExpiry c1State 0).1.registry "t" = some 0 ∧
    GetTimer (runExpiry c1State 0).1 "t" = (some 0, true) ∧
    Step (.expiry 0) c1State (runExpiry c1State 0).1 ∧
    alGet (runExpiry c1StateOk 0).1.registry "t" = none := by
  refine ⟨by decide, by decide, by decide, by decide, ?_, by decide⟩
  exact Step.expiry c1State 0
    ⟨"t", some cbPanic, minuteNs, minuteNs, true, false, .waiting⟩
    (by decide) (by decide) (by decide)

end TimerSys

namespace TimerSys

theorem Stop_parts (s : RegState) (r : Nat) :
    (Stop s r).registry = s.registry ∧ (Stop s r).nextRef = s.nextRef ∧
    (Stop s r).clock = s.clock ∧ (Stop s r).firedLog = s.firedLog := by
  unfold Stop
  cases alGet s.store r with
  | none => exact ⟨rfl, rfl, rfl, rfl⟩
  | some td =>
    cases hb : td.isActive <;> cases hc : td.stopChan <;> simp [hb, hc]

theorem Stop_cases (s : RegState) (r : Nat) :
    Stop s r = s ∨
    ∃ td0, alGet s.store r = some td0 ∧ td0.isActive = true ∧
      td0.stopChan = false ∧
      Stop s r = { s with store := alSet s.store r { td0 with stopChan := true } } := by
  unfold Stop
  cases h : alGet s.store r with
  | none => exact Or.inl rfl
  | some td =>
    cases hb : td.isActive with
    | false => exact Or.inl (by simp [hb])
    | true =>
      cases hc : td.stopChan with
      | true => exact Or.inl (by simp [hb, hc])
      | false => exact Or.inr ⟨td, rfl, hb, hc, by simp [hb, hc]⟩

theorem Stop_store_shape (s : RegState) (r r' : Nat) :
    (alGet (Stop s r).store r').map shape = (alGet s.store r').map shape := by
  rcases Stop_cases s r with h | ⟨td0, htd0, _, _, h⟩
  · rw [h]
  · rw [h]
    by_cases hr : r' = r
    · subst hr
      rw [alGet_set_self, htd0]
      rfl
    · rw [alGet_set_ne _ _ _ _ hr]

theorem mem_Stop_store {s : RegState} {r : Nat} {p : Nat × TimerData}
    (h : p ∈ (Stop s r).store) :
    p ∈ s.store ∨
    ∃ td0, alGet s.store r = some td0 ∧ p = (r, { td0 with stopChan := true }) := by
  rcases Stop_cases s r with heq | ⟨td0, htd0, _, _, heq⟩
  · rw [heq] at h
    exact Or.inl h
  · rw [heq] at h
    rcases mem_alSet h with h1 | h1
    · exact Or.inr ⟨td0, htd0, h1⟩
    · exact Or.inl h1

theorem wf_Stop {s : RegState} (r : Nat) (hwf : WFStore s) : WFStore (Stop s r) := by
  intro p hp
  rw [(Stop_parts s r).2.1]
  rcases mem_Stop_store hp with h1 | ⟨td0, htd0, h1⟩
  · exact hwf p h1
  · have hlt : r < s.nextRef := hwf (r, td0) (alGet_mem htd0)
    rw [h1]
    exact hlt

theorem runExpiry_parts (s : RegState) (r : Nat) (td : TimerData)
    (hs : alGet s.store r = some td) :
    (runExpiry s r).1.store
      = alSet s.store r { td with isActive := false, runState := .finished } ∧
    (runExpiry s r).1.nextRef = s.nextRef ∧
    (runExpiry s r).1.clock = s.clock ∧
    ((runExpiry s r).1.registry = s.registry ∨
      (runExpiry s r).1.registry = alErase s.registry td.id) ∧
    ((runExpiry s r).1.firedLog = s.firedLog ∨
      (runExpiry s r).1.firedLog = s.firedLog ++ [r]) := by
  cases hcb : td.callback with
  | none =>
    refine ⟨?_, ?_, ?_, Or.inr ?_, Or.inl ?_⟩ <;> simp [runExpiry, hs, hcb]
  | some cb =>
    cases hp : cb.panics with
    | true =>
      refine ⟨?_, ?_, ?_, Or.inl ?_, Or.inr ?_⟩ <;> simp [runExpiry, hs, hcb, hp]
    | false =>
      refine ⟨?_, ?_, ?_, Or.inr ?_, Or.inr ?_⟩ <;> simp [runExpiry, hs, hcb, hp]

theorem runStop_parts (s : RegState) (r : Nat) (td : TimerData)
    (hs : alGet s.store r = some td) :
    runStop s r
      = { s with
          store := alSet s.store r
            { td with isActive := false, stopChan := false, runState := .finished },
          registry := alErase s.registry td.id } := by
  unfold runStop
  rw [hs]

theorem wf_runExpiry {s : RegState} (r : Nat) (hwf : WFStore s) :
    WFStore (runExpiry s r).1 := by
  cases hs : alGet s.store r with
  | none =>
    have : (runExpiry s r).1 = s := by unfold runExpiry; rw [hs]
    rw [this]
    exact hwf
  | some td =>
    obtain ⟨hst, hnr, _, _, _⟩ := runExpiry_parts s r td hs
    intro p hp
    rw [hnr]
    rw [hst] at hp
    have hlt : r < s.nextRef := hwf (r, td) (alGet_mem hs)
    rcases mem_alSet hp with h1 | h1
    · rw [h1]
      exact hlt
    · exact hwf p h1

theorem wf_runStop {s : RegState} (r : Nat) (hwf : WFStore s) :
    WFStore (runStop s r) := by
  cases hs : alGet s.store r with
  | none =>
    have : runStop s r = s := by unfold runStop; rw [hs]
    rw [this]
    exact hwf
  | some td =>
    rw [runStop_parts s r td hs]
    intro p hp
    have hlt : r < s.nextRef := hwf (r, td) (alGet_mem hs)
    rcases mem_alSet hp with h1 | h1
    · rw [h1]
      exact hlt
    · exact hwf p h1

theorem createTimer_parts (s : RegState) (id : String) (d e : Int)
    (cb : Option Cb) :
    ∃ s1, ((alGet s.registry id = none ∧ s1 = s) ∨
        ∃ r0, alGet s.registry id = some r0 ∧ s1 = Stop s r0) ∧
      createTimer s id d e cb
        = ({ s1 with
              registry := alSet s1.registry id s1.nextRef
              store := alSet s1.store s1.nextRef (newTd id cb e (s1.clock + d))
              nextRef := s1.nextRef + 1 }, s1.nextRef) := by
  unfold createTimer
  cases hreg : alGet s.registry id with
  | none => exact ⟨s, Or.inl ⟨rfl, rfl⟩, rfl⟩
  | some r0 => exact ⟨Stop s r0, Or.inr ⟨r0, rfl, rfl⟩, rfl⟩

theorem wf_createTimer {s : RegState} (id : String) (d e : Int) (cb : Option Cb)
    (hwf : WFStore s) : WFStore (createTimer s id d e cb).1 := by
  obtain ⟨s1, hs1, heq⟩ := createTimer_parts s id d e cb
  have hwf1 : WFStore s1 := by
    rcases hs1 with ⟨_, h⟩ | ⟨r0, _, h⟩
    · rw [h]; exact hwf
    · rw [h]; exact wf_Stop r0 hwf
  rw [heq]
  intro p hp
  have hp2 : p ∈ alSet s1.store s1.nextRef (newTd id cb e (s1.clock + d)) := hp
  show p.1 < s1.nextRef + 1
  rcases mem_alSet hp2 with h1 | h1
  · rw [h1]
    omega
  · have := hwf1 p h1
    omega

theorem wf_StopTimer {s : RegState} (id : String) (hwf : WFStore s) :
    WFStore (StopTimer s id).1 := by
  unfold StopTimer
  cases alGet s.registry id with
  | none => exact hwf
  | some r => exact wf_Stop r hwf

theorem wf_step {l : SLabel} {s s' : RegState} (hstep : Step l s s')
    (hwf : WFStore s) : WFStore s' := by
  cases hstep with
  | tick s n hn => exact hwf
  | expiry s r td hs hw hf => exact wf_runExpiry r hwf
  | stopSig s r td hs hw hc => exact wf_runStop r hwf
  | apiCreate s id d e cb => exact wf_createTimer id d e cb hwf
  | apiStopTimer s id => exact wf_StopTimer id hwf
  | apiStopHandle s r => exact wf_Stop r hwf

end TimerSys

namespace TimerSys

theorem shape_eq_fields {td1 td : TimerData} (h : shape td1 = shape td) :
    td1.id = td.id ∧ td1.callback = td.callback ∧ td1.expireTime = td.expireTime ∧
    td1.fireAt = td.fireAt ∧ td1.isActive = td.isActive ∧
    td1.runState = td.runState := by
  unfold shape at h
  simp only [Prod.mk.injEq] at h
  exact ⟨h.1, h.2.1, h.2.2.1, h.2.2.2.1, h.2.2.2.2.1, h.2.2.2.2.2⟩

theorem map_shape_some {o1 : Option TimerData} {td : TimerData}
    (h : o1.map shape = (some td).map shape) :
    ∃ td1, o1 = some td1 ∧ shape td1 = shape td := by
  cases o1 with
  | none => simp at h
  | some td1 =>
    simp only [Option.map_some'] at h
    exact ⟨td1, rfl, Option.some.inj h⟩

theorem live_mem_active {s : RegState} {id : String} {r : Nat}
    (h : live s id r) : id ∈ GetAllActiveTimers s := by
  obtain ⟨hreg, ⟨td, htd, hid, hact, _⟩, _, _⟩ := h
  have hmem : (id, r) ∈ s.registry := alGet_mem hreg
  have hA : IsActive s r = true := by simp [IsActive, htd, hact]
  unfold GetAllActiveTimers
  refine List.mem_map.2 ⟨(id, r), ?_, rfl⟩
  exact List.mem_filter.2 ⟨hmem, hA⟩

theorem live_Stop {s : RegState} {id : String} {r : Nat} (r0 : Nat)
    (h : live s id r) : live (Stop s r0) id r := by
  obtain ⟨hreg, ⟨td, htd, hid, hact, hwait⟩, huniq, hwf⟩ := h
  refine ⟨?_, ?_, ?_, wf_Stop r0 hwf⟩
  · rw [(Stop_parts s r0).1]
    exact hreg
  · have hsh := Stop_store_shape s r0 r
    rw [htd] at hsh
    obtain ⟨td1, htd1, hsheq⟩ := map_shape_some hsh
    obtain ⟨h1, _, _, _, h5, h6⟩ := shape_eq_fields hsheq
    exact ⟨td1, htd1, by rw [h1, hid], by rw [h5, hact], by rw [h6, hwait]⟩
  · intro p hp hpid
    rcases mem_Stop_store hp with h1 | ⟨td0, htd0, h1⟩
    · exact huniq p h1 hpid
    · have : td0.id = id := by
        rw [h1] at hpid
        exact hpid
      have := huniq (r0, td0) (alGet_mem htd0) this
      rw [h1]
      exact this

theorem live_step {l : SLabel} {s s' : RegState} {id : String} {r : Nat}
    (hstep : Step l s s') (hlive : live s id r) (hav : avoids id r l = true) :
    live s' id r := by
  obtain ⟨hreg, ⟨td, htd, hid, hact, hwait⟩, huniq, hwf⟩ := hlive
  cases hstep with
  | tick s n hn => exact ⟨hreg, ⟨td, htd, hid, hact, hwait⟩, huniq, hwf⟩
  | expiry s r' td' hs' hw' hf' =>
    have hrne : r' ≠ r := by simpa [avoids] using hav
    have hidne : td'.id ≠ id := by
      intro hcontra
      exact hrne (huniq (r', td') (alGet_mem hs') hcontra)
    obtain ⟨hst, hnr, hck, hregOr, _⟩ := runExpiry_parts s r' td' hs'
    refine ⟨?_, ?_, ?_, wf_runExpiry r' hwf⟩
    · rcases hregOr with h1 | h1
      · rw [h1]
        exact hreg
      · rw [h1, alGet_erase_ne _ _ _ (fun h2 => hidne h2.symm)]
        exact hreg
    · refine ⟨td, ?_, hid, hact, hwait⟩
      rw [hst, alGet_set_ne _ _ _ _ (fun h2 => hrne h2.symm)]
      exact htd
    · intro p hp hpid
      rw [hst] at hp
      rcases mem_alSet hp with h1 | h1
      · exfalso
        apply hidne
        rw [h1] at hpid
        exact hpid
      · exact huniq p h1 hpid
  | stopSig s r' td' hs' hw' hc' =>
    have hrne : r' ≠ r := by simpa [avoids] using hav
    have hidne : td'.id ≠ id := by
      intro hcontra
      exact hrne (huniq (r', td') (alGet_mem hs') hcontra)
    have hwf' := wf_runStop r' hwf
    rw [runStop_parts s r' td' hs'] at hwf' ⊢
    refine ⟨?_, ?_, ?_, hwf'⟩
    · show alGet (alErase s.registry td'.id) id = some r
      rw [alGet_erase_ne _ _ _ (fun h2 => hidne h2.symm)]
      exact hreg
    · refine ⟨td, ?_, hid, hact, hwait⟩
      show alGet (alSet s.store r' _) r = some td
      rw [alGet_set_ne _ _ _ _ (fun h2 => hrne h2.symm)]
      exact htd
    · intro p hp hpid
      rcases mem_alSet hp with h1 | h1
      · exfalso
        apply hidne
        rw [h1] at hpid
        exact hpid
      · exact huniq p h1 hpid
  | apiCreate s id1 d e cb =>
    have hidne : id1 ≠ id := by simpa [avoids] using hav
    obtain ⟨s1, hs1, heq⟩ := createTimer_parts s id1 d e cb
    have hlive1 : live s1 id r := by
      rcases hs1 with ⟨_, h1⟩ | ⟨r0, _, h1⟩
      · rw [h1]
        exact ⟨hreg, ⟨td, htd, hid, hact, hwait⟩, huniq, hwf⟩
      · rw [h1]
        exact live_Stop r0 ⟨hreg, ⟨td, htd, hid, hact, hwait⟩, huniq, hwf⟩
    obtain ⟨hreg1, ⟨td2, htd2, hid2, hact2, hwait2⟩, huniq1, hwf1⟩ := hlive1
    have hwfC := wf_createTimer id1 d e cb hwf
    rw [heq] at hwfC ⊢
    have hrlt : r < s1.nextRef := hwf1 (r, td2) (alGet_mem htd2)
    refine ⟨?_, ?_, ?_, hwfC⟩
    · show alGet (alSet s1.registry id1 s1.nextRef) id = some r
      rw [alGet_set_ne _ _ _ _ (fun h2 => hidne h2.symm)]
      exact hreg1
    · refine ⟨td2, ?_, hid2, hact2, hwait2⟩
      show alGet (alSet s1.store s1.nextRef _) r = some td2
      rw [alGet_set_ne _ _ _ _ (by omega)]
      exact htd2
    · intro p hp hpid
      have hp2 : p ∈ alSet s1.store s1.nextRef (newTd id1 cb e (s1.clock + d)) := hp
      rcases mem_alSet hp2 with h1 | h1
      · exfalso
        apply hidne
        rw [h1] at hpid
        exact hpid
      · exact huniq1 p h1 hpid
  | apiStopTimer s id1 =>
    cases hreg1 : alGet s.registry id1 with
    | none =>
      have heq : (StopTimer s id1).1 = s := by simp [StopTimer, hreg1]
      rw [heq]
      exact ⟨hreg, ⟨td, htd, hid, hact, hwait⟩, huniq, hwf⟩
    | some r0 =>
      have heq : (StopTimer s id1).1 = Stop s r0 := by simp [StopTimer, hreg1]
      rw [heq]
      exact live_Stop r0 ⟨hreg, ⟨td, htd, hid, hact, hwait⟩, huniq, hwf⟩
  | apiStopHandle s r0 =>
    exact live_Stop r0 ⟨hreg, ⟨td, htd, hid, hact, hwait⟩, huniq, hwf⟩

theorem live_trace : ∀ {s s2 : RegState} {ls : List SLabel} {id : String}
    {r : Nat}, Trace s ls s2 → live s id r →
    (∀ l ∈ ls, avoids id r l = true) → live s2 id r := by
  intro s s2 ls id r ht
  induction ht with
  | nil => intro h _; exact h
  | cons s1 sm s3 l ls2 hstep htr ih =>
    intro hlive hav
    exact ih (live_step hstep hlive (hav l (List.mem_cons_self l ls2)))
      (fun l2 h2 => hav l2 (List.mem_cons_of_mem l h2))

end TimerSys

namespace TimerSys

theorem finished_step {l : SLabel} {s s' : RegState} {r : Nat} {td : TimerData}
    (hstep : Step l s s') (htd : alGet s.store r = some td)
    (hfin : td.runState = .finished) (hwf : WFStore s) :
    ∃ td2, alGet s'.store r = some td2 ∧ td2.runState = .finished ∧
      (r ∈ s'.firedLog ↔ r ∈ s.firedLog) := by
  cases hstep with
  | tick s n hn => exact ⟨td, htd, hfin, Iff.rfl⟩
  | expiry s r' td' hs' hw' hf' =>
    have hrne : r' ≠ r := by
      intro h2
      subst h2
      rw [htd] at hs'
      rw [← Option.some.inj hs'] at hw'
      rw [hfin] at hw'
      exact RunState.noConfusion hw'
    obtain ⟨hst, _, _, _, hfireOr⟩ := runExpiry_parts s r' td' hs'
    refine ⟨td, ?_, hfin, ?_⟩
    · rw [hst, alGet_set_ne _ _ _ _ (fun h2 => hrne h2.symm)]
      exact htd
    · rcases hfireOr with h1 | h1
      · rw [h1]
      · rw [h1]
        simp [List.mem_append, hrne.symm]
  | stopSig s r' td' hs' hw' hc' =>
    have hrne : r' ≠ r := by
      intro h2
      subst h2
      rw [htd] at hs'
      rw [← Option.some.inj hs'] at hw'
      rw [hfin] at hw'
      exact RunState.noConfusion hw'
    rw [runStop_parts s r' td' hs']
    refine ⟨td, ?_, hfin, Iff.rfl⟩
    show alGet (alSet s.store r' _) r = some td
    rw [alGet_set_ne _ _ _ _ (fun h2 => hrne h2.symm)]
    exact htd
  | apiCreate s id1 d e cb =>
    obtain ⟨s1, hs1, heq⟩ := createTimer_parts s id1 d e cb
    have hnr1 : s1.nextRef = s.nextRef := by
      rcases hs1 with ⟨_, h1⟩ | ⟨r0, _, h1⟩
      · rw [h1]
      · rw [h1]
        exact (Stop_parts s r0).2.1
    have hfl1 : s1.firedLog = s.firedLog := by
      rcases hs1 with ⟨_, h1⟩ | ⟨r0, _, h1⟩
      · rw [h1]
      · rw [h1]
        exact (Stop_parts s r0).2.2.2
    have hsh : (alGet s1.store r).map shape = (alGet s.store r).map shape := by
      rcases hs1 with ⟨_, h1⟩ | ⟨r0, _, h1⟩
      · rw [h1]
      · rw [h1]
        exact Stop_store_shape s r0 r
    rw [htd] at hsh
    obtain ⟨td2, htd2, hsheq⟩ := map_shape_some hsh
    obtain ⟨_, _, _, _, _, h6⟩ := shape_eq_fields hsheq
    have hrlt : r < s1.nextRef := by
      rw [hnr1]
      exact hwf (r, td) (alGet_mem htd)
    rw [heq]
    refine ⟨td2, ?_, by rw [h6, hfin], ?_⟩
    · show alGet (alSet s1.store s1.nextRef _) r = some td2
      rw [alGet_set_ne _ _ _ _ (by omega)]
      exact htd2
    · show r ∈ s1.firedLog ↔ r ∈ s.firedLog
      rw [hfl1]
  | apiStopTimer s id1 =>
    cases hreg1 : alGet s.registry id1 with
    | none =>
      have heq : (StopTimer s id1).1 = s := by simp [StopTimer, hreg1]
      rw [heq]
      exact ⟨td, htd, hfin, Iff.rfl⟩
    | some r0 =>
      have heq : (StopTimer s id1).1 = Stop s r0 := by simp [StopTimer, hreg1]
      rw [heq]
      have hsh := Stop_store_shape s r0 r
      rw [htd] at hsh
      obtain ⟨td2, htd2, hsheq⟩ := map_shape_some hsh
      obtain ⟨_, _, _, _, _, h6⟩ := shape_eq_fields hsheq
      refine ⟨td2, htd2, by rw [h6, hfin], ?_⟩
      rw [(Stop_parts s r0).2.2.2]
  | apiStopHandle s r0 =>
    have hsh := Stop_store_shape s r0 r
    rw [htd] at hsh
    obtain ⟨td2, htd2, hsheq⟩ := map_shape_some hsh
    obtain ⟨_, _, _, _, _, h6⟩ := shape_eq_fields hsheq
    refine ⟨td2, htd2, by rw [h6, hfin], ?_⟩
    rw [(Stop_parts s r0).2.2.2]

theorem finished_trace : ∀ {s s2 : RegState} {ls : List SLabel},
    Trace s ls s2 → ∀ {r : Nat} {td : TimerData}, WFStore s →
    alGet s.store r = some td → td.runState = .finished →
    (r ∈ s2.firedLog ↔ r ∈ s.firedLog) := by
  intro s s2 ls ht
  induction ht with
  | nil => intro r td _ _ _; exact Iff.rfl
  | cons s1 sm s3 l ls2 hstep htr ih =>
    intro r td hwf htd hfin
    obtain ⟨td2, htd2, hfin2, hiff⟩ := finished_step hstep htd hfin hwf
    exact Iff.trans (ih (wf_step hstep hwf) htd2 hfin2) hiff

end TimerSys

namespace TimerSys

theorem createTimer_live (s : RegState) (id : String) (d e : Int) (cb : Option Cb)
    (hfresh : ∀ p ∈ s.store, p.2.id ≠ id) (hwf : WFStore s) :
    (createTimer s id d e cb).2 = s.nextRef ∧
    alGet (createTimer s id d e cb).1.store s.nextRef
      = some (newTd id cb e (s.clock + d)) ∧
    live (createTimer s id d e cb).1 id s.nextRef := by
  obtain ⟨s1, hs1, heq⟩ := createTimer_parts s id d e cb
  have hnr1 : s1.nextRef = s.nextRef := by
    rcases hs1 with ⟨_, h1⟩ | ⟨r0, _, h1⟩
    · rw [h1]
    · rw [h1]
      exact (Stop_parts s r0).2.1
  have hck1 : s1.clock = s.clock := by
    rcases hs1 with ⟨_, h1⟩ | ⟨r0, _, h1⟩
    · rw [h1]
    · rw [h1]
      exact (Stop_parts s r0).2.2.1
  have hfresh1 : ∀ p ∈ s1.store, p.2.id ≠ id := by
    intro p hp
    rcases hs1 with ⟨_, h1⟩ | ⟨r0, _, h1⟩
    · rw [h1] at hp
      exact hfresh p hp
    · rw [h1] at hp
      rcases mem_Stop_store hp with h2 | ⟨td0, htd0, h2⟩
      · exact hfresh p h2
      · rw [h2]
        exact hfresh (r0, td0) (alGet_mem htd0)
  have hwfC := wf_createTimer id d e cb hwf
  rw [heq] at hwfC ⊢
  rw [← hnr1, ← hck1]
  refine ⟨rfl, ?_, ?_, ?_, ?_, hwfC⟩
  · show alGet (alSet s1.store s1.nextRef (newTd id cb e (s1.clock + d)))
      s1.nextRef = some (newTd id cb e (s1.clock + d))
    exact alGet_set_self _ _ _
  · show alGet (alSet s1.registry id s1.nextRef) id = some s1.nextRef
    exact alGet_set_self _ _ _
  · exact ⟨newTd id cb e (s1.clock + d), alGet_set_self _ _ _, rfl, rfl, rfl⟩
  · intro p hp hpid
    have hp2 : p ∈ alSet s1.store s1.nextRef (newTd id cb e (s1.clock + d)) := hp
    rcases mem_alSet hp2 with h1 | h1
    · rw [h1]
    · exact absurd hpid (hfresh1 p h1)

/-- C8: for every id, every `minutes > 0` and every non-nil callback,
`NewTimerWithDuration` succeeds and returns the handle of a timer with
`GetID` equal to the id, `IsActive` true and `GetExpireTime` equal to the
creation-time clock plus `minutes` minutes, and the id appears in
`GetAllActiveTimers` and stays there along every execution whose steps
neither terminate that timer's goroutine nor re-create its id (the events
by which it fires or is stopped/replaced). The state is assumed
well-formed with no existing heap timer under that id. -/
theorem newTimerWithDuration_active_until (s : RegState) (id : String)
    (minutes : Int) (cb : Option Cb) (hmin : 0 < minutes) (hcb : cb ≠ none)
    (hfresh : ∀ p ∈ s.store, p.2.id ≠ id) (hwf : WFStore s) :
    (NewTimerWithDuration s id minutes cb).2 = .ok s.nextRef ∧
    GetID (NewTimerWithDuration s id minutes cb).1 s.nextRef = id ∧
    IsActive (NewTimerWithDuration s id minutes cb).1 s.nextRef = true ∧
    GetExpireTime (NewTimerWithDuration s id minutes cb).1 s.nextRef
      = s.clock + minutes * minuteNs ∧
    id ∈ GetAllActiveTimers (NewTimerWithDuration s id minutes cb).1 ∧
    (∀ ls s2, Trace (NewTimerWithDuration s id minutes cb).1 ls s2 →
      (∀ l ∈ ls, avoids id s.nextRef l = true) →
      id ∈ GetAllActiveTimers s2) := by
  have hne : ¬minutes ≤ 0 := by omega
  have hout : NewTimerWithDuration s id minutes cb
      = ((createTimer s id (minutes * minuteNs) (s.clock + minutes * minuteNs) cb).1,
         .ok (createTimer s id (minutes * minuteNs) (s.clock + minutes * minuteNs) cb).2) := by
    simp [NewTimerWithDuration, hne, hcb]
  obtain ⟨href, hstore, hlive⟩ := createTimer_live s id (minutes * minuteNs)
    (s.clock + minutes * minuteNs) cb hfresh hwf
  rw [hout]
  refine ⟨by rw [href], ?_, ?_, ?_, ?_, ?_⟩
  · show GetID (createTimer s id (minutes * minuteNs)
      (s.clock + minutes * minuteNs) cb).1 s.nextRef = id
    unfold GetID
    rw [hstore]
    rfl
  · show IsActive (createTimer s id (minutes * minuteNs)
      (s.clock + minutes * minuteNs) cb).1 s.nextRef = true
    unfold IsActive
    rw [hstore]
    rfl
  · show GetExpireTime (createTimer s id (minutes * minuteNs)
      (s.clock + minutes * minuteNs) cb).1 s.nextRef
      = s.clock + minutes * minuteNs
    unfold GetExpireTime
    rw [hstore]
    rfl
  · exact live_mem_active hlive
  · intro ls s2 ht hav
    exact live_mem_active (live_trace ht hlive hav)

/-- Witness for C8 at a concrete input: creating timer "t" for 5 minutes
in the pristine state succeeds with handle 0, active, expiring at
5 minutes, listed among the active timers. -/
theorem newTimerWithDuration_active_until_witness :
    (NewTimerWithDuration emptyReg "t" 5 (some cbA)).2 = .ok emptyReg.nextRef ∧
    GetID (NewTimerWithDuration emptyReg "t" 5 (some cbA)).1 emptyReg.nextRef = "t" ∧
    IsActive (NewTimerWithDuration emptyReg "t" 5 (some cbA)).1 emptyReg.nextRef
      = true ∧
    GetExpireTime (NewTimerWithDuration emptyReg "t" 5 (some cbA)).1 emptyReg.nextRef
      = emptyReg.clock + 5 * minuteNs ∧
    "t" ∈ GetAllActiveTimers (NewTimerWithDuration emptyReg "t" 5 (some cbA)).1 ∧
    (∀ ls s2, Trace (NewTimerWithDuration emptyReg "t" 5 (some cbA)).1 ls s2 →
      (∀ l ∈ ls, avoids "t" emptyReg.nextRef l = true) →
      "t" ∈ GetAllActiveTimers s2) :=
  newTimerWithDuration_active_until emptyReg "t" 5 (some cbA) (by decide)
    (by decide) (by simp [emptyReg]) (by decide)

end TimerSys

namespace TimerSys

theorem filter_key_of_filter_ne {κ α : Type} [BEq κ] [LawfulBEq κ]
    (l : List (κ × α)) (k : κ) :
    (l.filter (fun p => p.1 != k)).filter (fun p => p.1 == k) = [] := by
  induction l with
  | nil => rfl
  | cons hd tl ih =>
    by_cases h : hd.1 = k
    · simp only [List.filter_cons]
      have : (hd.1 != k) = false := by simp [h]
      simp only [this, Bool.false_eq_true, if_false]
      exact ih
    · simp only [List.filter_cons]
      have h1 : (hd.1 != k) = true := by simp [h]
      have h2 : (hd.1 == k) = false := by simp [h]
      simp only [h1, if_true, List.filter_cons, h2, Bool.false_eq_true, if_false]
      exact ih

theorem alSet_filter_key_length {κ α : Type} [BEq κ] [LawfulBEq κ]
    (l : List (κ × α)) (k : κ) (v : α) :
    ((alSet l k v).filter (fun p => p.1 == k)).length = 1 := by
  unfold alSet
  simp only [List.filter_cons, beq_self_eq_true, if_true]
  rw [filter_key_of_filter_ne]
  rfl

theorem Stop_active_empty {s : RegState} {r0 : Nat} {td0 : TimerData}
    (htd0 : alGet s.store r0 = some td0) (hact : td0.isActive = true)
    (hchan : td0.stopChan = false) :
    Stop s r0 = { s with store := alSet s.store r0 { td0 with stopChan := true } } := by
  unfold Stop
  rw [htd0]
  simp [hact, hchan]

end TimerSys

namespace TimerSys

/-- C4 counterexample: an execution in which timer `cbA` (reference 0) is
created under id "t", the clock reaches its expiry instant, and a
replacement `cbB` (reference 1) is created under the same id — the old
timer is signalled to stop and the new one installed — yet the old
goroutine's `select` may still take the ready expiry arm, firing the
superseded callback (firedLog = [0]) and even deleting the replacement's
registry entry by id; alternatively its stale cancellation arm also
deletes the replacement's entry while the replacement is still active.
This refutes "the superseded timer's callback never fires" and the
persistence of "exactly one Timer for that id in the registry (the new
one, active)". -/
theorem createTimer_replace_race_counterexample :
    Trace emptyReg
      [.apiCreate "t" minuteNs minuteNs (some cbA), .tick minuteNs,
       .apiCreate "t" minuteNs (c4s2.clock + minuteNs) (some cbB), .expiry 0]
      c4s4 ∧
    (NewTimerWithDuration emptyReg "t" 1 (some cbA)).1 = c4s1 ∧
    NewTimerWithDuration c4s2 "t" 1 (some cbB) = (c4s3, .ok 1) ∧
    alGet c4s3.registry "t" = some 1 ∧
    IsActive c4s3 1 = true ∧
    c4s4.firedLog = [0] ∧
    alGet c4s4.registry "t" = none ∧
    IsActive c4s4 1 = true ∧
    Step (.stopSig 0) c4s3 (runStop c4s3 0) ∧
    alGet (runStop c4s3 0).registry "t" = none ∧
    IsActive (runStop c4s3 0) 1 = true := by
  refine ⟨?_, by decide, by decide, by decide, by decide, by decide, by decide,
    by decide, ?_, by decide, by decide⟩
  · refine Trace.cons _ c4s1 _ _ _
      (Step.apiCreate emptyReg "t" minuteNs minuteNs (some cbA)) ?_
    refine Trace.cons _ c4s2 _ _ _ (Step.tick c4s1 minuteNs (by decide)) ?_
    refine Trace.cons _ c4s3 _ _ _
      (Step.apiCreate c4s2 "t" minuteNs (c4s2.clock + minuteNs) (some cbB)) ?_
    refine Trace.cons _ c4s4 _ _ _
      (Step.expiry c4s3 0 ⟨"t", some cbA, minuteNs, minuteNs, true, true, .waiting⟩
        (by decide) (by decide) (by decide)) ?_
    exact Trace.nil c4s4
  · exact Step.stopSig c4s3 0
      ⟨"t", some cbA, minuteNs, minuteNs, true, true, .waiting⟩
      (by decide) (by decide) (by decide)

/-- Helper: taking the cancellation arm does not touch the fired log, and
from the resulting state — where the timer's goroutine has terminated — no
execution can ever add that timer to the fired log. -/
theorem runStop_never_fires {X : RegState} {r0 : Nat} {td1 : TimerData}
    (hmem : alGet X.store r0 = some td1) (hwfX : WFStore X) :
    (runStop X r0).firedLog = X.firedLog ∧
    ∀ ls s2, Trace (runStop X r0) ls s2 →
      (r0 ∈ s2.firedLog ↔ r0 ∈ X.firedLog) := by
  have hfinlk : alGet (runStop X r0).store r0
      = some { td1 with isActive := false, stopChan := false, runState := RunState.finished } := by
    rw [runStop_parts X r0 td1 hmem]
    exact alGet_set_self _ _ _
  have hfl : (runStop X r0).firedLog = X.firedLog := by
    rw [runStop_parts X r0 td1 hmem]
  refine ⟨hfl, ?_⟩
  intro ls s2 ht
  have hiff := finished_trace ht (wf_runStop r0 hwfX) hfinlk rfl
  rw [hfl] at hiff
  exact hiff

/-- C4 (amended): creating a timer under an id that maps to an active
timer signals that timer to stop before the new one is installed;
immediately afterwards the registry holds exactly one entry for the id —
the new, active timer under the fresh reference — while the superseded
timer carries a pending stop signal; as long as the clock has not reached
the superseded timer's firing instant its expiry arm is not enabled, and
once it takes the cancellation arm its callback is not invoked and can
never fire in any later execution. (If its expiry instant has already
passed when its goroutine resolves, the callback may still fire and the
stale deletion may remove the replacement's entry — see the
counterexample.) -/
theorem createTimer_replace_amended (s : RegState) (id : String) (d e : Int)
    (cb : Option Cb) (r0 : Nat) (td0 : TimerData)
    (hreg : alGet s.registry id = some r0)
    (htd0 : alGet s.store r0 = some td0)
    (hact : td0.isActive = true) (hchan : td0.stopChan = false)
    (hwf : WFStore s) (hnf : r0 ∉ s.firedLog) :
    (createTimer s id d e cb).2 = s.nextRef ∧
    r0 ≠ s.nextRef ∧
    alGet (createTimer s id d e cb).1.registry id = some s.nextRef ∧
    ((createTimer s id d e cb).1.registry.filter (fun p => p.1 == id)).length = 1 ∧
    alGet (createTimer s id d e cb).1.store s.nextRef
      = some (newTd id cb e (s.clock + d)) ∧
    alGet (createTimer s id d e cb).1.store r0
      = some { td0 with stopChan := true } ∧
    (createTimer s id d e cb).1.clock = s.clock ∧
    (s.clock < td0.fireAt →
      ∀ s2, ¬ Step (.expiry r0) (createTimer s id d e cb).1 s2) ∧
    (runStop (createTimer s id d e cb).1 r0).firedLog = s.firedLog ∧
    (∀ ls s2, Trace (runStop (createTimer s id d e cb).1 r0) ls s2 →
      r0 ∉ s2.firedLog) := by
  have hlt : r0 < s.nextRef := hwf (r0, td0) (alGet_mem htd0)
  have hwfC := wf_createTimer id d e cb hwf
  obtain ⟨s1, hs1, heq⟩ := createTimer_parts s id d e cb
  rcases hs1 with ⟨hnone, _⟩ | ⟨r0a, hrega, hs1eq⟩
  · rw [hreg] at hnone
    exact absurd hnone (by simp)
  have hr0 : r0a = r0 := by
    rw [hreg] at hrega
    exact (Option.some.inj hrega).symm
  rw [hr0] at hs1eq
  have hsEq : s1
      = { s with store := alSet s.store r0 { td0 with stopChan := true } } := by
    rw [hs1eq]
    exact Stop_active_empty htd0 hact hchan
  have hs1store : s1.store = alSet s.store r0 { td0 with stopChan := true } := by
    rw [hsEq]
  have hs1nr : s1.nextRef = s.nextRef := by rw [hsEq]
  have hs1ck : s1.clock = s.clock := by rw [hsEq]
  have hs1fl : s1.firedLog = s.firedLog := by rw [hsEq]
  rw [heq] at hwfC ⊢
  have hnew : alGet (alSet s1.store s1.nextRef (newTd id cb e (s1.clock + d)))
      s.nextRef = some (newTd id cb e (s.clock + d)) := by
    rw [hs1nr, hs1ck]
    exact alGet_set_self _ _ _
  have hold : alGet (alSet s1.store s1.nextRef (newTd id cb e (s1.clock + d)))
      r0 = some { td0 with stopChan := true } := by
    rw [hs1nr, alGet_set_ne _ _ _ _ (by omega), hs1store]
    exact alGet_set_self _ _ _
  refine ⟨hs1nr, by omega, ?_, ?_, hnew, hold, hs1ck, ?_, ?_, ?_⟩
  · show alGet (alSet s1.registry id s1.nextRef) id = some s.nextRef
    rw [alGet_set_self, hs1nr]
  · exact alSet_filter_key_length _ _ _
  · intro hck s2 hstep
    cases hstep with
    | expiry _ _ td2 hs2 hw2 hf2 =>
      have hs3 : alGet (alSet s1.store s1.nextRef (newTd id cb e (s1.clock + d)))
          r0 = some td2 := hs2
      have htdeq : ({ td0 with stopChan := true } : TimerData) = td2 :=
        Option.some.inj (hold.symm.trans hs3)
      have hf3 : td2.fireAt ≤ s1.clock := hf2
      rw [← htdeq] at hf3
      have hf4 : td0.fireAt ≤ s.clock := by
        rw [← hs1ck]
        exact hf3
      omega
  · have h9 := (runStop_never_fires hold hwfC).1
    exact h9.trans hs1fl
  · intro ls s2 ht hcontra
    have hiff := (runStop_never_fires hold hwfC).2 ls s2 ht
    have hmem1 : r0 ∈ s1.firedLog := hiff.mp hcontra
    rw [hs1fl] at hmem1
    exact hnf hmem1

/-- Witness for the amended C4 at a concrete input: replacing the active
timer of `c4s1` (id "t", reference 0) installs the new timer under the
fresh reference 1 and signals the old one. -/
theorem createTimer_replace_amended_witness :
    (createTimer c4s1 "t" minuteNs minuteNs (some cbB)).2 = c4s1.nextRef ∧
    alGet (createTimer c4s1 "t" minuteNs minuteNs (some cbB)).1.registry "t"
      = some c4s1.nextRef ∧
    alGet (createTimer c4s1 "t" minuteNs minuteNs (some cbB)).1.store 0
      = some ⟨"t", some cbA, minuteNs, minuteNs, true, true, .waiting⟩ :=
  ⟨(createTimer_replace_amended c4s1 "t" minuteNs minuteNs (some cbB) 0
      ⟨"t", some cbA, minuteNs, minuteNs, true, false, .waiting⟩
      (by decide) (by decide) (by decide) (by decide) (by decide) (by decide)).1,
   (createTimer_replace_amended c4s1 "t" minuteNs minuteNs (some cbB) 0
      ⟨"t", some cbA, minuteNs, minuteNs, true, false, .waiting⟩
      (by decide) (by decide) (by decide) (by decide) (by decide) (by decide)).2.2.1,
   (createTimer_replace_amended c4s1 "t" minuteNs minuteNs (some cbB) 0
      ⟨"t", some cbA, minuteNs, minuteNs, true, false, .waiting⟩
      (by decide) (by decide) (by decide) (by decide) (by decide) (by decide)).2.2.2.2.2.1⟩

end TimerSys
